import Mathlib

/-!
Verification development for the HashBrown CMS core slice: schema resolution
(`src/unnamed/part_003`, class `SchemaBase`) and media deployment
(`src/src/Server/Entity/Resource/Media.js`, class `Media`).

The JavaScript is shallowly embedded: external collaborators (the file-backed
schema tiers, the document database, the sync service, the deployer storage)
become explicit environment/state structures, and thrown JavaScript errors
become an explicit error type threaded through `Except`.
-/

/-- Errors raised by the embedded JavaScript code. `referenceErrorQuery` is the
strict-mode ReferenceError raised by evaluating the unbound identifier `query`
at line 94 of `SchemaBase.get`; `typeErrorNullType` is the TypeError raised by
reading `data.type` at line 109 when `data` is `null`; `externalProcess` is a
failure of the shelled-out image conversion; `fsRemoveFailed` is a failure of
the deployer's folder removal. -/
inductive JsError where
  | referenceErrorQuery
  | typeErrorNullType
  | noDeployerConfigured
  | externalProcess
  | fsRemoveFailed
deriving DecidableEq, Repr

/-- An on-disk schema definition file (core `schema/<dir>/<id>.json` or plugin
`plugins/*/schema/<dir>/<id>.json`): the parsed JSON body together with the
name of the containing directory, which supplies the schema's type tag
(lines 71-74 of `SchemaBase.get`). -/
structure SchemaFile where
  dirName : String
  name : String
  parentSchemaId : Option String
  fields : List (String × String)
deriving DecidableEq, Repr

/-- A schema record as held in the `data` variable of `SchemaBase.get`:
identifier, type tag, display name, optional parent reference, the
field-definition map (key, definition), and the locked flag. -/
structure SchemaData where
  id : String
  type : String
  name : String
  parentSchemaId : Option String
  fields : List (String × String)
  isLocked : Bool
deriving DecidableEq, Repr

/-- The `options` object taken by `SchemaBase.get`; absent properties are
falsy, modelled by `false`. -/
structure SchemaOptions where
  customOnly : Bool := false
  nativeOnly : Bool := false
  localOnly : Bool := false
  withParentFields : Bool := false
deriving DecidableEq, Repr

/-- The four sources `SchemaBase.get` consults, keyed by schema identifier:
built-in schema files (`FileService.list` over `schema/*/<id>.json`), plugin
schema files, the per project+environment database collection
(`DatabaseService.findOne`), and the sync service
(`SyncService.getResourceItem`). Association lists model first-match lookup. -/
structure SchemaEnv where
  core : List (String × SchemaFile)
  plugin : List (String × SchemaFile)
  db : List (String × SchemaData)
  sync : List (String × SchemaData)
deriving Repr

/-- Lower-casing of a string, characterwise (`parentDirName.toLowerCase()`). -/
def lowerStr (s : String) : String :=
  String.mk (s.data.map Char.toLower)

/-- Lines 68-76 of `SchemaBase.get`: the record built from a schema file hit,
with `data.id = id`, `data.type = parentDirName.toLowerCase()` and
`data.isLocked = true`. -/
def SchemaFile.toData (f : SchemaFile) (id : String) : SchemaData :=
  { id := id
    type := lowerStr f.dirName
    name := f.name
    parentSchemaId := f.parentSchemaId
    fields := f.fields
    isLocked := true }

/-- Lines 57-91 of `SchemaBase.get`: `let data = null`, then the three source
tiers in order, each guarded exactly as in the source
(`if(!options.customOnly)`, `if(!data && !options.nativeOnly)`,
`if(!data && !options.localOnly && !options.nativeOnly)`), with
`corePaths[0] || pluginPaths[0]` giving built-in files precedence over plugin
files. -/
def SchemaBase.lookupData (env : SchemaEnv) (id : String) (opts : SchemaOptions) :
    Option SchemaData :=
  let data : Option SchemaData := none
  let data :=
    if !opts.customOnly then
      match env.core.lookup id, env.plugin.lookup id with
      | some f, _ => some (f.toData id)
      | none, some f => some (f.toData id)
      | none, none => data
    else data
  let data :=
    if data.isNone && !opts.nativeOnly then env.db.lookup id else data
  let data :=
    if data.isNone && !opts.localOnly && !opts.nativeOnly then env.sync.lookup id
    else data
  data

/-- The lookup order exactly as claim C4 states it, written from the claim's
words for comparison with `SchemaBase.lookupData`: built-in schema files
first, then plugin schema files (built-in precedence, found records locked);
only if nothing was found and `nativeOnly` is unset, the custom database
record; only if still nothing was found and neither `localOnly` nor
`nativeOnly` is set, the remote synchronization source; `customOnly` skips
both file tiers. -/
def SchemaBase.lookupDataSpec (env : SchemaEnv) (id : String) (opts : SchemaOptions) :
    Option SchemaData :=
  let fileHit : Option SchemaData :=
    if opts.customOnly then none
    else
      match env.core.lookup id with
      | some f => some (f.toData id)
      | none => (env.plugin.lookup id).map (fun f => f.toData id)
  match fileHit with
  | some d => some d
  | none =>
    match (if opts.nativeOnly then none else env.db.lookup id) with
    | some d => some d
    | none =>
      if opts.localOnly || opts.nativeOnly then none else env.sync.lookup id

/-- The entity instantiated at lines 109-118 of `SchemaBase.get`: dispatch on
the stored `type` tag, falling back to the generic schema entity. -/
inductive SchemaEntity where
  | fieldSchema (d : SchemaData)
  | contentSchema (d : SchemaData)
  | base (d : SchemaData)
deriving DecidableEq, Repr

/-- The record carried by a schema entity. -/
def SchemaEntity.data : SchemaEntity → SchemaData
  | .fieldSchema d => d
  | .contentSchema d => d
  | .base d => d

/-- Lines 109-118 of `SchemaBase.get`, applied to a non-null record. -/
def SchemaBase.instantiate (d : SchemaData) : SchemaEntity :=
  if d.type = "field" then .fieldSchema d
  else if d.type = "content" then .contentSchema d
  else .base d

/-- `SchemaBase.get` as written in the source (`src/unnamed/part_003`,
lines 51-119). After the three lookup tiers (lines 57-91 =
`SchemaBase.lookupData`), line 94 evaluates
`data && query.withParentFields && data.parentSchemaId`. The identifier
`query` is not bound anywhere in the file (the function's parameter is
`options`), so in this strict-mode module the condition throws
`ReferenceError: query is not defined` as soon as `data` is truthy. When
`data` is `null` the condition short-circuits without touching `query`, and
line 109 then reads `data.type` on `null`, throwing a TypeError. Hence the
function rejects on every input: with `referenceErrorQuery` when some tier
produced a record, and with `typeErrorNullType` when none did. -/
def SchemaBase.get (env : SchemaEnv) (id : String) (opts : SchemaOptions) :
    Except JsError SchemaEntity :=
  match SchemaBase.lookupData env id opts with
  | some _ => .error .referenceErrorQuery
  | none => .error .typeErrorNullType

/-- Modelled from the spec: `SchemaResolver.merge` lives in
`Common/Entity/Resource/SchemaBase`, which is not under `src/`. Per spec
section 4.2 it is a shallow key-wise merge of the field-definition maps:
every field key present in the parent and absent in the child is added;
every key present in both keeps the child's definition. -/
def SchemaBase.merge (child parent : SchemaData) : SchemaData :=
  { child with
      fields :=
        child.fields ++
          parent.fields.filter (fun kv => (child.fields.lookup kv.1).isNone) }

/-- The recursive call `this.get(project, environment, childSchema.parentSchemaId)`
made inside the parent-chain walk, under the evident intent of line 94
(`options` in place of the unbound `query`). It passes default options, so
`withParentFields` is falsy and the walk is not re-entered: the call reduces
to the lookup tiers followed by the line 109 dispatch (TypeError on a missing
parent). -/
def SchemaBase.getNoMerge (env : SchemaEnv) (id : String) :
    Except JsError SchemaEntity :=
  match SchemaBase.lookupData env id {} with
  | some d => .ok (SchemaBase.instantiate d)
  | none => .error .typeErrorNullType

/-- The `while(childSchema.parentSchemaId)` loop at lines 98-104 of
`SchemaBase.get`, under the evident intent of line 94. The loop carries no
set of visited identifiers, so a cyclic parent chain never leaves it; the
explicit fuel bound makes that observable: `none` means the loop was still
running after `fuel` iterations. -/
def SchemaBase.parentLoop (env : SchemaEnv) :
    Nat → SchemaData → SchemaData → Option (Except JsError SchemaData)
  | 0, _, _ => none
  | fuel + 1, merged, child =>
    match child.parentSchemaId with
    | none => some (.ok merged)
    | some pid =>
      match SchemaBase.getNoMerge env pid with
      | .error e => some (.error e)
      | .ok parentEnt =>
        SchemaBase.parentLoop env fuel (SchemaBase.merge merged parentEnt.data)
          parentEnt.data

/-- `SchemaBase.get` under the evident intent of line 94 (the condition read
as `data && options.withParentFields && data.parentSchemaId`), with the
parent-chain walk bounded by `fuel`: `none` means the walk had not finished
after `fuel` iterations, i.e. the request diverges past any bound. -/
def SchemaBase.getIntended (env : SchemaEnv) (fuel : Nat) (id : String)
    (opts : SchemaOptions) : Option (Except JsError SchemaEntity) :=
  match SchemaBase.lookupData env id opts with
  | none => some (.error .typeErrorNullType)
  | some data =>
    if opts.withParentFields && data.parentSchemaId.isSome then
      match SchemaBase.parentLoop env fuel data data with
      | none => none
      | some (.error e) => some (.error e)
      | some (.ok merged) => some (.ok (SchemaBase.instantiate merged))
    else some (.ok (SchemaBase.instantiate data))

/-- The `article` schema of the spec's worked example: parent `page`, own
field-definition map `(body)`. -/
def articleData : SchemaData :=
  { id := "article"
    type := "content"
    name := "Article"
    parentSchemaId := some "page"
    fields := [("body", "richText")]
    isLocked := false }

/-- The `page` schema of the spec's worked example: no parent, field map
`(title)`. -/
def pageData : SchemaData :=
  { id := "page"
    type := "content"
    name := "Page"
    parentSchemaId := none
    fields := [("title", "string")]
    isLocked := false }

/-- Environment for the spec's `article`/`page` example: both schemas are
custom database records, no schema files, no sync copies. -/
def envArticle : SchemaEnv :=
  { core := [], plugin := []
    db := [("article", articleData), ("page", pageData)]
    sync := [] }

/-- Schema `a` of the cyclic example: parent `b`. -/
def cycleDataA : SchemaData :=
  { id := "a"
    type := "content"
    name := "A"
    parentSchemaId := some "b"
    fields := [("fa", "string")]
    isLocked := false }

/-- Schema `b` of the cyclic example: parent `a`, closing the cycle. -/
def cycleDataB : SchemaData :=
  { id := "b"
    type := "content"
    name := "B"
    parentSchemaId := some "a"
    fields := [("fb", "string")]
    isLocked := false }

/-- Environment holding the cyclic pair `a -> b -> a` as database records. -/
def envCycle : SchemaEnv :=
  { core := [], plugin := []
    db := [("a", cycleDataA), ("b", cycleDataB)]
    sync := [] }

/-- The empty schema environment: no files, no records, no sync copies. -/
def envEmpty : SchemaEnv :=
  { core := [], plugin := [], db := [], sync := [] }

/-- The per-environment `mediaDeployer` settings object; `aliasName` models
the `alias` property, with `""` standing for a missing/empty (falsy) alias. -/
structure DeployerSettings where
  aliasName : String
deriving DecidableEq, Repr

/-- The part of `HashBrown.Entity.Context` that `Media` consults:
`context.project.getEnvironmentSettings(context.environment, 'mediaDeployer')`,
which is `none` when no deployer settings exist for the environment. -/
structure MediaContext where
  mediaDeployer : Option DeployerSettings
deriving DecidableEq, Repr

/-- A media resource record: identifier, filename and display name. A
synthesized (metadata-less) resource carries `""` for the unset fields. -/
structure MediaResource where
  id : String
  filename : String
  name : String
deriving DecidableEq, Repr

/-- Observable state of the media subsystem: the persisted database records
(the generic resource persistence layer), the deployed files as
(media identifier, filename) pairs — `deployer.getPath(id, filename)` places
a file in the folder of `id` — and whether the scoped temporary folder used
by thumbnail generation currently exists. -/
structure MediaState where
  db : List MediaResource
  storage : List (String × String)
  temp : Bool
deriving DecidableEq, Repr

/-- `Media.getDeployer` (lines 18-28 of `Media.js`): reads the
`mediaDeployer` environment settings and returns `null` when they are absent
or carry no (falsy) `alias`; otherwise resolves the deployer. -/
def Media.getDeployer (ctx : MediaContext) : Option DeployerSettings :=
  match ctx.mediaDeployer with
  | none => none
  | some d => if d.aliasName = "" then none else some d

/-- Whether a character list starts with the given needle. -/
def startsWithChars : List Char → List Char → Bool
  | [], _ => true
  | _ :: _, [] => false
  | c :: cs, h :: hs => c == h && startsWithChars cs hs

/-- Whether the needle occurs as a contiguous run of the haystack. -/
def containsChars (needle : List Char) : List Char → Bool
  | [] => startsWithChars needle []
  | c :: rest => startsWithChars needle (c :: rest) || containsChars needle rest

/-- JavaScript `haystack.indexOf(needle) > -1`: substring containment. -/
def strContains (haystack needle : String) : Bool :=
  containsChars needle.data haystack.data

/-- Characters of the extension (reversed) of a reversed character list:
everything before the first `.` of the reversed filename, `none` when the
filename has no dot. -/
def revExtChars : List Char → Option (List Char)
  | [] => none
  | c :: rest =>
    if c = Char.ofNat 46 then some []
    else (revExtChars rest).map (fun e => c :: e)

/-- `Path.extname`: the extension of a filename including the leading dot,
`""` when there is none. -/
def extname (fn : String) : String :=
  match revExtChars fn.data.reverse with
  | none => ""
  | some revExt => String.mk (Char.ofNat 46 :: revExt.reverse)

/-- Modelled from the spec: the global helper `getMIMEType` is not under
`src/`. Per spec sections 4.4 and 6 it maps a filename to a MIME type by
extension, with SVG mapping to the vector type `image/svg+xml`, raster image
extensions to `image/...` types, and anything unrecognized to a non-image
type. -/
def getMIMEType (fn : String) : String :=
  let e := extname fn
  if e = ".svg" then "image/svg+xml"
  else if e = ".png" then "image/png"
  else if e = ".jpg" || e = ".jpeg" then "image/jpeg"
  else if e = ".gif" then "image/gif"
  else "application/octet-stream"

/-- A filename whose MIME type is an image but not SVG: exactly the payloads
for which `Media.generateThumbnail` attempts a conversion (negation of the
guard at line 295 of `Media.js`). -/
def isRasterImage (fn : String) : Bool :=
  strContains (getMIMEType fn) "image" && !strContains (getMIMEType fn) "svg"

/-- A filename whose MIME type is SVG (`type.indexOf('svg') > -1`). -/
def isSvgImage (fn : String) : Bool :=
  strContains (getMIMEType fn) "svg"

/-- The bytes read back from the temporary file after the external `convert`
process has resized the image; the conversion itself is an external process
(out of scope), modelled as a function of the source bytes. -/
def convertOutput (data : String) : String :=
  "scaled:" ++ data

/-- `Media.generateThumbnail` (lines 287-315 of `Media.js`). `execOk` is the
outcome of the external `convert` invocation. Control flow as in the source:
non-image or SVG content returns `null` untouched (line 295); otherwise the
temporary folder is created and the source bytes written (lines 301-303),
`convert` runs (line 306) — when it fails the awaited promise rejects and the
function exits with the error, WITHOUT reaching the folder removal at
line 312 — and on success the result is read back and the temporary folder
removed (lines 309-314). -/
def Media.generateThumbnail (execOk : Bool) (filename : String) (data : String)
    (s : MediaState) : MediaState × Except JsError (Option String) :=
  let type := getMIMEType filename
  if !strContains type "image" || strContains type "svg" then (s, .ok none)
  else
    let s1 := { s with temp := true }
    if execOk then ({ s1 with temp := false }, .ok (some (convertOutput data)))
    else (s1, .error .externalProcess)

/-- `deployer.setFile(deployer.getPath(id, filename), content)`: deploys a
file into the folder of `id`, idempotent on an already-present path. -/
def MediaState.setFile (s : MediaState) (id filename : String) : MediaState :=
  if (id, filename) ∈ s.storage then s
  else { s with storage := s.storage ++ [(id, filename)] }

/-- The `data` argument of `Media.create`; `id` models the identifier the
generic resource-creation path assigns to the new record. -/
structure MediaData where
  id : String
  filename : String
  name : String
deriving DecidableEq, Repr

/-- The `options` argument of `Media.create`/`Media.save`: the full payload
(base64) and the filename used for the deployed path. -/
structure MediaOptions where
  full : String
  filename : String
deriving DecidableEq, Repr

/-- Modelled from the spec: the record `super.create` persists; the generic
resource-creation path is not under `src/`, and per spec section 4.3 it
persists a resource record built from the given data. -/
def Media.superCreateRecord (data : MediaData) : MediaResource :=
  { id := data.id, filename := data.filename, name := data.name }

/-- `Media.create` (lines 39-64 of `Media.js`). Resolves the deployer and
throws when there is none (lines 46-50); persists the record through
`super.create` (line 52, modelled by `Media.superCreateRecord`); then clears
the resource's folder (line 54), deploys the full file at
`getPath(resource.id, options.filename)` (line 55), generates a thumbnail
from the payload (line 57) and deploys it as `thumbnail.jpg` when one was
produced (lines 59-61). A thumbnail-generation error propagates after the
database and full-file writes (no rollback). -/
def Media.create (ctx : MediaContext) (execOk : Bool) (data : MediaData)
    (opts : MediaOptions) (s : MediaState) :
    MediaState × Except JsError MediaResource :=
  match Media.getDeployer ctx with
  | none => (s, .error .noDeployerConfigured)
  | some _ =>
    let resource := Media.superCreateRecord data
    let s1 := { s with db := resource :: s.db }
    let s2 := { s1 with storage := s1.storage.filter (fun f => f.1 != resource.id) }
    let s3 := s2.setFile resource.id opts.filename
    match Media.generateThumbnail execOk opts.filename opts.full s3 with
    | (s4, .error e) => (s4, .error e)
    | (s4, .ok none) => (s4, .ok resource)
    | (s4, .ok (some _)) => (s4.setFile resource.id "thumbnail.jpg", .ok resource)

/-- `deployer.getFolder(deployer.getPath(id))` as seen by `Media.get`: the
filenames deployed in the folder of `id`, empty when no deployer is
configured (lines 136-141 of `Media.js`). -/
def Media.folderFiles (ctx : MediaContext) (s : MediaState) (id : String) :
    List String :=
  match Media.getDeployer ctx with
  | none => []
  | some _ => (s.storage.filter (fun f => f.1 == id)).map (fun f => f.2)

/-- The first entry of a folder listing that is not `thumbnail.jpg` — the
file the association loop of `Media.get` synthesizes a resource from. -/
def firstNonThumbnail : List String → Option String
  | [] => none
  | fn :: rest =>
    if fn = "thumbnail.jpg" then firstNonThumbnail rest else some fn

/-- The synthesized, metadata-less resource `this.new({ id, filename })`
built by `Media.get` for a deployed file lacking a database record. -/
def Media.synthesized (id filename : String) : MediaResource :=
  { id := id, filename := filename, name := "" }

/-- `super.get` — modelled from the spec: the generic persistence lookup
(`findOne`) is not under `src/`; per spec sections 4.3 and 6 it returns the
stored record for the identifier, or `null` when absent. -/
def Media.superGet (s : MediaState) (id : String) : Option MediaResource :=
  s.db.find? (fun r => r.id == id)

/-- One iteration of the file-association loop of `Media.get`
(lines 147-159 of `Media.js`): skip `thumbnail.jpg`; when no resource was
found yet, synthesize one from the file. -/
def Media.assocStep (id : String) (r : Option MediaResource) (fn : String) :
    Option MediaResource :=
  if fn = "thumbnail.jpg" then r
  else
    match r with
    | some x => some x
    | none => some (Media.synthesized id fn)

/-- `Media.get` (lines 130-162 of `Media.js`): lists the resource's deployed
folder (empty without a deployer), reads the database record, then walks the
files skipping `thumbnail.jpg` and synthesizes a metadata-less resource from
the first remaining file when no record was found. -/
def Media.get (ctx : MediaContext) (id : String) (s : MediaState) :
    Option MediaResource :=
  (Media.folderFiles ctx s id).foldl (Media.assocStep id) (Media.superGet s id)

/-- `Media.remove` (lines 227-237 of `Media.js`): deletes the persisted
record through `super.remove` — modelled from the spec: the generic deletion
path is not under `src/` — then, when a deployer is configured, removes the
resource's whole deployed folder. `folderRemoveOk` is the outcome of the
external `deployer.removeFolder` call; per spec section 4.3 the two steps are
not transactional, and a folder-removal failure propagates after the record
deletion, leaving the deployed files orphaned. -/
def Media.remove (ctx : MediaContext) (id : String) (folderRemoveOk : Bool)
    (s : MediaState) : MediaState × Except JsError Unit :=
  let s1 := { s with db := s.db.filter (fun r => r.id != id) }
  match Media.getDeployer ctx with
  | none => (s1, .ok ())
  | some _ =>
    if folderRemoveOk then
      ({ s1 with storage := s1.storage.filter (fun f => f.1 != id) }, .ok ())
    else (s1, .error .fsRemoveFailed)

/-- Modelled from the spec: `getName` lives in `Common/Entity/Resource`,
not under `src/`; per spec section 4.3 sorting is by display name, so the
display name is the stored name, falling back to the filename and the
identifier for records missing one. -/
def MediaResource.getName (r : MediaResource) : String :=
  if r.name ≠ "" then r.name
  else if r.filename ≠ "" then r.filename
  else r.id

/-- The order the comparator at lines 212-217 of `Media.js` sorts by:
`a.getName()` against `b.getName()`, case-sensitive lexicographic, ties
compared equal. -/
def mediaLe (a b : MediaResource) : Prop :=
  MediaResource.getName a ≤ MediaResource.getName b

instance : DecidableRel mediaLe := fun a b =>
  inferInstanceAs (Decidable (MediaResource.getName a ≤ MediaResource.getName b))

instance : IsTotal MediaResource mediaLe :=
  ⟨fun a b => le_total (MediaResource.getName a) (MediaResource.getName b)⟩

instance : IsTrans MediaResource mediaLe :=
  ⟨fun _ _ _ h h2 => le_trans h h2⟩

/-- Insert-or-replace on the association list modelling the plain-object
`resourceMap`: assigning to an existing key replaces the value in place,
assigning to a fresh key appends it. -/
def upsertKeep : List (String × MediaResource) → String → MediaResource →
    List (String × MediaResource)
  | [], k, v => [(k, v)]
  | (k', v') :: rest, k, v =>
    if k' = k then (k', v) :: rest else (k', v') :: upsertKeep rest k v

/-- In-place update of the value stored under a key of the `resourceMap`. -/
def modifyVal : List (String × MediaResource) → String →
    (MediaResource → MediaResource) → List (String × MediaResource)
  | [], _, _ => []
  | (k', v') :: rest, k, g =>
    if k' = k then (k', g v') :: rest else (k', v') :: modifyVal rest k g

/-- One iteration of the file-association loop of `Media.list`
(lines 195-208 of `Media.js`): skip `thumbnail.jpg`, synthesize
`new Media({ id })` when the identifier has no map entry yet, then set the
entry's `filename` to the file's basename. -/
def Media.listStep (m : List (String × MediaResource)) (f : String × String) :
    List (String × MediaResource) :=
  if f.2 = "thumbnail.jpg" then m
  else
    let m1 :=
      if (m.lookup f.1).isSome then m
      else upsertKeep m f.1 { id := f.1, filename := "", name := "" }
    modifyVal m1 f.1 (fun r => { r with filename := f.2 })

/-- The deployed files visible to `Media.list`:
`deployer.getFolder(deployer.getPath(), 2)` yields every (identifier,
filename) pair, and no deployer yields none (lines 177-182 of `Media.js`). -/
def Media.deployedFiles (ctx : MediaContext) (s : MediaState) :
    List (String × String) :=
  match Media.getDeployer ctx with
  | none => []
  | some _ => s.storage

/-- `Media.list` (lines 172-220 of `Media.js`): lists all deployed files
(`Media.deployedFiles`), reads all database records through `super.list` —
modelled from the spec: the generic listing path is not under `src/` and
returns the stored records — keys the records by identifier in
`resourceMap`, associates the files through `Media.listStep`, takes the
map's values, and sorts them with the comparator on display names (a stable
sort agreeing with the comparator, modelled as insertion sort over
`mediaLe`). -/
def Media.list (ctx : MediaContext) (s : MediaState) : List MediaResource :=
  let files := Media.deployedFiles ctx s
  let resources := s.db
  let rmap :=
    resources.foldl (fun m r => upsertKeep m r.id r) []
  let rmap := files.foldl Media.listStep rmap
  List.insertionSort mediaLe (rmap.map (fun p => p.2))

/-- A media context whose environment has deployer settings with a
non-empty alias. -/
def ctxDeployed : MediaContext :=
  { mediaDeployer := some { aliasName := "filesystem" } }

/-- A media context whose environment has no `mediaDeployer` settings. -/
def ctxNoSettings : MediaContext :=
  { mediaDeployer := none }

/-- The empty media state: no records, no deployed files, no temp folder. -/
def stEmpty : MediaState :=
  { db := [], storage := [], temp := false }

/-- Creation data for the raster-image example. -/
def dataPhoto : MediaData :=
  { id := "m1", filename := "photo.png", name := "Photo" }

/-- Creation options for the raster-image example. -/
def optsPhoto : MediaOptions :=
  { full := "QkFTRTY0", filename := "photo.png" }

/-- The record `Media.create` persists for `dataPhoto`. -/
def resPhoto : MediaResource :=
  { id := "m1", filename := "photo.png", name := "Photo" }

/-- A state whose only deployed file for `abc` is the thumbnail. -/
def stThumbOnly : MediaState :=
  { db := [], storage := [("abc", "thumbnail.jpg")], temp := false }

/-- The state after the folder clear and full-file deploy of `Media.create`
(lines 52-55 of `Media.js`): record persisted, folder of the new identifier
cleared, full payload deployed at `options.filename`. -/
def Media.afterFullDeploy (data : MediaData) (opts : MediaOptions)
    (s : MediaState) : MediaState :=
  MediaState.setFile
    { s with
        db := Media.superCreateRecord data :: s.db
        storage := s.storage.filter (fun f => f.1 != data.id) }
    data.id opts.filename

/-- The keys of the `resourceMap` association list. -/
def mapKeys (m : List (String × MediaResource)) : List String :=
  m.map (fun p => p.1)

/-- Well-formedness of the `resourceMap`: keys are distinct and every entry
is stored under its own identifier. -/
def WfMap (m : List (String × MediaResource)) : Prop :=
  (mapKeys m).Nodup ∧ ∀ p ∈ m, p.2.id = p.1

/-- C1: For every schema whose parent chain is acyclic and whose ancestors
are all resolvable, `SchemaBase.get` with `withParentFields` is claimed to
return the union of the schema's own fields and every ancestor's fields; in
particular, resolving `article` (parent `page`, fields `(body)`) should yield
fields `(title, body)`. The code instead rejects: line 94 evaluates
`query.withParentFields` where `query` is unbound, so as soon as the lookup
tiers produce a record the strict-mode module throws a ReferenceError and the
merge loop is never reached. -/
theorem c1_withParentFields_throws_referenceError :
    SchemaBase.get envArticle "article" { withParentFields := true } =
      .error .referenceErrorQuery := rfl

/-- C2: A cyclic parent chain (`a -> b -> a`) is claimed to fail with
`SchemaCycleError`. Under the evident intent of line 94 (`options` for the
unbound `query`), the `while` loop at lines 98-104 carries no visited set, so
the walk never finishes: for every fuel bound the bounded embedding
`SchemaBase.getIntended` is still running (`none`), and in particular no
`SchemaCycleError` (no error at all) is ever produced. -/
theorem c2_cycle_walk_diverges (fuel : Nat) :
    SchemaBase.getIntended envCycle fuel "a" { withParentFields := true } =
      none := by
  have hloop : ∀ (n : Nat) (merged child : SchemaData),
      child = cycleDataA ∨ child = cycleDataB →
      SchemaBase.parentLoop envCycle n merged child = none := by
    intro n
    induction n with
    | zero =>
      intro merged child h
      rcases h with h | h <;> subst h <;> rfl
    | succ k ih =>
      intro merged child h
      rcases h with h | h <;> subst h
      · have hstep : SchemaBase.parentLoop envCycle (k + 1) merged cycleDataA =
            SchemaBase.parentLoop envCycle k (SchemaBase.merge merged cycleDataB)
              cycleDataB := rfl
        rw [hstep]
        exact ih _ _ (Or.inr rfl)
      · have hstep : SchemaBase.parentLoop envCycle (k + 1) merged cycleDataB =
            SchemaBase.parentLoop envCycle k (SchemaBase.merge merged cycleDataA)
              cycleDataA := rfl
        rw [hstep]
        exact ih _ _ (Or.inl rfl)
  have hrun : SchemaBase.getIntended envCycle fuel "a"
      { withParentFields := true } =
      match SchemaBase.parentLoop envCycle fuel cycleDataA cycleDataA with
      | none => none
      | some (.error e) => some (.error e)
      | some (.ok merged) => some (.ok (SchemaBase.instantiate merged)) := rfl
  rw [hrun, hloop fuel cycleDataA cycleDataA (Or.inl rfl)]

/-- C3: When no tier (built-in file, plugin file, custom database record,
synchronized copy) has the identifier, `SchemaBase.get` is claimed to return
`null`. The code instead falls through to line 109 with `data` still `null`
and throws a TypeError reading `data.type`. -/
theorem c3_absent_everywhere_throws_typeError :
    SchemaBase.get envEmpty "nonexistent" {} = .error .typeErrorNullType := rfl

/-- C4: The lookup phase of `SchemaBase.get` (lines 57-91) consults the
sources in the claimed fixed order with short-circuiting: built-in files,
then plugin files (built-in precedence, found records locked), then — only if
nothing was found and `nativeOnly` is unset — the custom database record,
then — only if still nothing was found and neither `localOnly` nor
`nativeOnly` is set — the sync source; `customOnly` skips both file tiers.
`SchemaBase.lookupDataSpec` is that order written from the claim's words, and
the two agree on every environment, identifier and option set. -/
theorem c4_lookup_tier_order (env : SchemaEnv) (id : String)
    (opts : SchemaOptions) :
    SchemaBase.lookupData env id opts = SchemaBase.lookupDataSpec env id opts := by
  unfold SchemaBase.lookupData SchemaBase.lookupDataSpec
  cases hc : opts.customOnly <;> cases hn : opts.nativeOnly <;>
    cases hl : opts.localOnly <;>
    cases h1 : env.core.lookup id <;> cases h2 : env.plugin.lookup id <;>
    cases h3 : env.db.lookup id <;>
    simp [h1, h2, h3]

/-- C6: When the environment has no `mediaDeployer` settings, or the settings
carry no alias, `Media.create` fails with the no-deployer-configured error
(the error spec section 7 names `NoDeployerConfiguredError`; the source
throws `new Error('No media deployer configured')`). -/
theorem c6_create_without_deployer_fails (ctx : MediaContext) (execOk : Bool)
    (data : MediaData) (opts : MediaOptions) (s : MediaState)
    (h : ctx.mediaDeployer = none ∨
      ∃ d, ctx.mediaDeployer = some d ∧ d.aliasName = "") :
    (Media.create ctx execOk data opts s).2 = .error .noDeployerConfigured := by
  have hd : Media.getDeployer ctx = none := by
    rcases h with h | ⟨d, hds, ha⟩
    · simp [Media.getDeployer, h]
    · simp [Media.getDeployer, hds, ha]
  unfold Media.create
  rw [hd]

/-- Witness for C6 at a concrete no-settings context. -/
theorem c6_create_without_deployer_fails_witness :
    (Media.create ctxNoSettings true dataPhoto optsPhoto stEmpty).2 =
      .error .noDeployerConfigured :=
  c6_create_without_deployer_fails ctxNoSettings true dataPhoto optsPhoto
    stEmpty (Or.inl rfl)

/-- C10: `Media.create` validates the deployer before any write: with no
deployer configured it throws before the resource-creation path runs, so the
whole state — database records, deployed files, temporary folder — is
returned unchanged alongside the error. -/
theorem c10_create_without_deployer_state_unchanged (ctx : MediaContext)
    (execOk : Bool) (data : MediaData) (opts : MediaOptions) (s : MediaState)
    (h : ctx.mediaDeployer = none ∨
      ∃ d, ctx.mediaDeployer = some d ∧ d.aliasName = "") :
    Media.create ctx execOk data opts s = (s, .error .noDeployerConfigured) := by
  have hd : Media.getDeployer ctx = none := by
    rcases h with h | ⟨d, hds, ha⟩
    · simp [Media.getDeployer, h]
    · simp [Media.getDeployer, hds, ha]
  unfold Media.create
  rw [hd]

/-- Witness for C10 at a concrete no-settings context. -/
theorem c10_create_without_deployer_state_unchanged_witness :
    Media.create ctxNoSettings true dataPhoto optsPhoto stEmpty =
      (stEmpty, .error .noDeployerConfigured) :=
  c10_create_without_deployer_state_unchanged ctxNoSettings true dataPhoto
    optsPhoto stEmpty (Or.inl rfl)

/-- The guard at line 295 of `Media.js` is the negation of
`isRasterImage`. -/
theorem thumbnail_guard_eq (fn : String) :
    (!strContains (getMIMEType fn) "image" || strContains (getMIMEType fn) "svg")
      = !isRasterImage fn := by
  unfold isRasterImage
  cases strContains (getMIMEType fn) "image" <;>
    cases strContains (getMIMEType fn) "svg" <;> rfl

/-- C9 (amended): for raster image content the temporary folder is removed on
the successful-conversion exit path, but when the external conversion process
fails the error propagates without reaching the folder removal at line 312,
so the temporary folder is left in place. -/
theorem c9_temp_cleanup_amended (s : MediaState) (fn data : String)
    (h : isRasterImage fn = true) :
    (Media.generateThumbnail true fn data s).1.temp = false ∧
      (Media.generateThumbnail false fn data s).1.temp = true := by
  unfold Media.generateThumbnail
  simp only [thumbnail_guard_eq, h]
  simp

/-- Witness for the amended C9 at a concrete raster filename. -/
theorem c9_temp_cleanup_amended_witness :
    (Media.generateThumbnail true "photo.png" "BYTES" stEmpty).1.temp = false ∧
      (Media.generateThumbnail false "photo.png" "BYTES" stEmpty).1.temp = true :=
  c9_temp_cleanup_amended stEmpty "photo.png" "BYTES" (by decide)

/-- Counterexample to C9 as stated: on raster content whose conversion fails,
`Media.generateThumbnail` exits with the process error while the temporary
folder it created is still present (it did not exist beforehand). -/
theorem c9_conversion_failure_leaves_temp :
    (Media.generateThumbnail false "photo.png" "BYTES" stEmpty).1.temp = true ∧
      stEmpty.temp = false ∧
      (Media.generateThumbnail false "photo.png" "BYTES" stEmpty).2 =
        .error .externalProcess :=
  ⟨rfl, rfl, rfl⟩

/-- Membership in the storage after `setFile`: the written path is present. -/
theorem MediaState.mem_setFile_self (s : MediaState) (id fn : String) :
    (id, fn) ∈ (s.setFile id fn).storage := by
  unfold MediaState.setFile
  by_cases h : (id, fn) ∈ s.storage <;> simp [h]

/-- `setFile` keeps every previously deployed file. -/
theorem MediaState.mem_setFile_of_mem (s : MediaState) (id fn : String)
    {p : String × String} (h : p ∈ s.storage) :
    p ∈ (s.setFile id fn).storage := by
  unfold MediaState.setFile
  by_cases h2 : (id, fn) ∈ s.storage <;> simp [h2, h]

/-- A file is in the storage after `setFile` exactly when it was there before
or is the written path. -/
theorem MediaState.mem_setFile_iff (s : MediaState) (id fn : String)
    (p : String × String) :
    p ∈ (s.setFile id fn).storage ↔ p ∈ s.storage ∨ p = (id, fn) := by
  unfold MediaState.setFile
  by_cases h : (id, fn) ∈ s.storage
  · simp only [h, if_pos]
    constructor
    · exact fun hp => Or.inl hp
    · rintro (hp | rfl)
      · exact hp
      · exact h
  · simp [h]

/-- An SVG filename is not the literal `thumbnail.jpg` (whose MIME type is
`image/jpeg`). -/
theorem svg_ne_thumbnail (fn : String) (h : isSvgImage fn = true) :
    fn ≠ "thumbnail.jpg" := by
  intro he
  subst he
  exact absurd h (by decide)

/-- An SVG filename is not raster. -/
theorem svg_not_raster (fn : String) (h : isSvgImage fn = true) :
    isRasterImage fn = false := by
  unfold isRasterImage
  unfold isSvgImage at h
  simp [h]



/-- Closed form of `Media.create` with a deployer, for non-image or SVG
payloads: record persisted, folder cleared, full file deployed, no
thumbnail. -/
theorem Media.create_eq_of_not_raster (ctx : MediaContext)
    (dep : DeployerSettings) (execOk : Bool) (data : MediaData)
    (opts : MediaOptions) (s : MediaState)
    (hd : Media.getDeployer ctx = some dep)
    (hraster : isRasterImage opts.filename = false) :
    Media.create ctx execOk data opts s =
      (Media.afterFullDeploy data opts s, .ok (Media.superCreateRecord data)) := by
  unfold Media.create Media.generateThumbnail Media.afterFullDeploy
  rw [hd]
  simp only [thumbnail_guard_eq, hraster, Bool.not_false, if_true]
  rfl

/-- Closed form of `Media.create` with a deployer, for raster payloads with a
successful conversion: additionally `thumbnail.jpg` is deployed and the
temporary folder is gone. -/
theorem Media.create_eq_of_raster_ok (ctx : MediaContext)
    (dep : DeployerSettings) (data : MediaData) (opts : MediaOptions)
    (s : MediaState) (hd : Media.getDeployer ctx = some dep)
    (hraster : isRasterImage opts.filename = true) :
    Media.create ctx true data opts s =
      (MediaState.setFile
        { Media.afterFullDeploy data opts s with temp := false }
        data.id "thumbnail.jpg",
       .ok (Media.superCreateRecord data)) := by
  unfold Media.create Media.generateThumbnail Media.afterFullDeploy
  rw [hd]
  simp only [thumbnail_guard_eq, hraster, Bool.not_true, if_false,
    Bool.false_eq_true, if_true]
  rfl

/-- Closed form of `Media.create` with a deployer, for raster payloads whose
conversion fails: the error propagates after the record and full-file writes,
with the temporary folder left behind. -/
theorem Media.create_eq_of_raster_fail (ctx : MediaContext)
    (dep : DeployerSettings) (data : MediaData) (opts : MediaOptions)
    (s : MediaState) (hd : Media.getDeployer ctx = some dep)
    (hraster : isRasterImage opts.filename = true) :
    Media.create ctx false data opts s =
      ({ Media.afterFullDeploy data opts s with temp := true },
       .error .externalProcess) := by
  unfold Media.create Media.generateThumbnail Media.afterFullDeploy
  rw [hd]
  simp only [thumbnail_guard_eq, hraster, Bool.not_true, if_false,
    Bool.false_eq_true, if_true]
  rfl

/-- The cleared folder holds no file for the new identifier, so the only
file of the new resource after the full deploy is `options.filename`. -/
theorem Media.mem_afterFullDeploy_iff (data : MediaData) (opts : MediaOptions)
    (s : MediaState) (x : String) :
    (data.id, x) ∈ (Media.afterFullDeploy data opts s).storage ↔
      x = opts.filename := by
  unfold Media.afterFullDeploy
  rw [MediaState.mem_setFile_iff]
  constructor
  · rintro (hmem | hmem)
    · simp only [List.mem_filter] at hmem
      exact absurd hmem.2 (by simp)
    · exact ((Prod.mk.injEq .. ▸ hmem).2)
  · rintro rfl
    exact Or.inr rfl

/-- C5: whenever `Media.create` succeeds, the full file is deployed under the
resource's folder at `options.filename`; when the payload is a non-SVG raster
image a `thumbnail.jpg` is deployed alongside it, and when the payload is SVG
no `thumbnail.jpg` is deployed. -/
theorem c5_create_deploys_full_and_thumbnail (ctx : MediaContext)
    (execOk : Bool) (data : MediaData) (opts : MediaOptions)
    (s s' : MediaState) (r : MediaResource)
    (h : Media.create ctx execOk data opts s = (s', .ok r)) :
    (r.id, opts.filename) ∈ s'.storage ∧
      (isRasterImage opts.filename = true →
        (r.id, "thumbnail.jpg") ∈ s'.storage) ∧
      (isSvgImage opts.filename = true →
        (r.id, "thumbnail.jpg") ∉ s'.storage) := by
  cases hd : Media.getDeployer ctx with
  | none =>
    unfold Media.create at h
    rw [hd] at h
    exact absurd h (by simp)
  | some dep =>
    cases hraster : isRasterImage opts.filename with
    | false =>
      rw [Media.create_eq_of_not_raster ctx dep execOk data opts s hd hraster]
        at h
      obtain ⟨hs', hr⟩ := Prod.mk.injEq .. ▸ h
      have hr2 : Media.superCreateRecord data = r := Except.ok.inj hr
      have hid : r.id = data.id := by
        rw [← hr2]
        rfl
      subst hs'
      refine ⟨?_, ?_, ?_⟩
      · rw [hid]
        unfold Media.afterFullDeploy
        exact MediaState.mem_setFile_self _ _ _
      · intro hcon
        exact absurd hcon (by simp [hraster])
      · intro hsvg hmem
        rw [hid, Media.mem_afterFullDeploy_iff] at hmem
        exact svg_ne_thumbnail opts.filename hsvg hmem.symm
    | true =>
      cases execOk with
      | false =>
        rw [Media.create_eq_of_raster_fail ctx dep data opts s hd hraster] at h
        exact absurd ((Prod.mk.injEq .. ▸ h).2) (by simp)
      | true =>
        rw [Media.create_eq_of_raster_ok ctx dep data opts s hd hraster] at h
        obtain ⟨hs', hr⟩ := Prod.mk.injEq .. ▸ h
        have hr2 : Media.superCreateRecord data = r := Except.ok.inj hr
        have hid : r.id = data.id := by
          rw [← hr2]
          rfl
        subst hs'
        refine ⟨?_, ?_, ?_⟩
        · rw [hid]
          apply MediaState.mem_setFile_of_mem
          show (data.id, opts.filename) ∈ (Media.afterFullDeploy data opts s).storage
          unfold Media.afterFullDeploy
          exact MediaState.mem_setFile_self _ _ _
        · intro _
          rw [hid]
          exact MediaState.mem_setFile_self _ _ _
        · intro hsvg
          exact absurd hraster (by simp [svg_not_raster opts.filename hsvg])

/-- Witness for C5: creating `photo.png` (a raster image) with a configured
deployer and a successful conversion deploys the full file and
`thumbnail.jpg`; the SVG clause holds vacuously for this filename. -/
theorem c5_create_deploys_full_and_thumbnail_witness :
    (resPhoto.id, optsPhoto.filename) ∈
        ((Media.create ctxDeployed true dataPhoto optsPhoto stEmpty).1).storage ∧
      (isRasterImage optsPhoto.filename = true →
        (resPhoto.id, "thumbnail.jpg") ∈
          ((Media.create ctxDeployed true dataPhoto optsPhoto stEmpty).1).storage) ∧
      (isSvgImage optsPhoto.filename = true →
        (resPhoto.id, "thumbnail.jpg") ∉
          ((Media.create ctxDeployed true dataPhoto optsPhoto stEmpty).1).storage) :=
  c5_create_deploys_full_and_thumbnail ctxDeployed true dataPhoto optsPhoto
    stEmpty _ resPhoto rfl

/-- After `super.remove` filtered the record out, the persistence lookup for
the identifier finds nothing. -/
theorem Media.superGet_filter_ne (l : List MediaResource) (id : String) :
    (l.filter (fun r => r.id != id)).find? (fun r => r.id == id) = none := by
  induction l with
  | nil => rfl
  | cons r rest ih =>
    by_cases h : r.id = id
    · simp [List.filter_cons, h, ih]
    · simp [List.filter_cons, h, ih]

/-- A found resource survives one association step. -/
theorem Media.assocStep_some (id fn : String) (x : MediaResource) :
    Media.assocStep id (some x) fn = some x := by
  unfold Media.assocStep
  by_cases h : fn = "thumbnail.jpg" <;> simp [h]

/-- Once the association loop of `Media.get` holds a resource, later files do
not change it. -/
theorem Media.foldl_assocStep_some (id : String) (x : MediaResource) :
    ∀ files : List String, files.foldl (Media.assocStep id) (some x) = some x := by
  intro files
  induction files with
  | nil => rfl
  | cons fn rest ih =>
    show List.foldl (Media.assocStep id) (Media.assocStep id (some x) fn) rest
      = some x
    rw [Media.assocStep_some]
    exact ih

/-- Starting from no resource, the association loop of `Media.get` yields a
synthesized resource from exactly the first non-thumbnail file. -/
theorem Media.foldl_assocStep_none (id : String) :
    ∀ files : List String,
      files.foldl (Media.assocStep id) none =
        (firstNonThumbnail files).map (Media.synthesized id) := by
  intro files
  induction files with
  | nil => rfl
  | cons fn rest ih =>
    show List.foldl (Media.assocStep id) (Media.assocStep id none fn) rest =
      (firstNonThumbnail (fn :: rest)).map (Media.synthesized id)
    by_cases h : fn = "thumbnail.jpg"
    · have hstep : Media.assocStep id none fn = none := by
        unfold Media.assocStep
        simp [h]
      have hf : firstNonThumbnail (fn :: rest) = firstNonThumbnail rest := by
        simp [firstNonThumbnail, h]
      rw [hstep, ih, hf]
    · have hstep : Media.assocStep id none fn =
          some (Media.synthesized id fn) := by
        unfold Media.assocStep
        simp [h]
      have hf : firstNonThumbnail (fn :: rest) = some fn := by
        simp [firstNonThumbnail, h]
      rw [hstep, Media.foldl_assocStep_some, hf]
      rfl

/-- C8: after `Media.remove` runs on an identifier — whether the external
folder removal succeeded (`folderRemoveOk = true`, the completed case) or
failed partway, and with or without a configured deployer — a subsequent
`Media.get` for that identifier returns exactly the synthesized,
metadata-less resource built from the first deployed non-thumbnail file still
visible in the resource's folder, and `none` when no such file remains. In
particular it returns a resource if and only if a deployed non-thumbnail file
for the identifier still exists, and after a fully completed removal it
returns `none`. -/
theorem c8_remove_then_get (ctx : MediaContext) (s : MediaState) (id : String)
    (folderRemoveOk : Bool) :
    Media.get ctx id (Media.remove ctx id folderRemoveOk s).1 =
      (firstNonThumbnail
          (Media.folderFiles ctx (Media.remove ctx id folderRemoveOk s).1 id)).map
        (Media.synthesized id) := by
  unfold Media.remove Media.get Media.folderFiles Media.superGet
  cases hd : Media.getDeployer ctx with
  | none =>
    simp only []
    rw [Media.superGet_filter_ne]
    rfl
  | some dep =>
    cases folderRemoveOk with
    | true =>
      simp only [if_true]
      rw [Media.superGet_filter_ne]
      rw [Media.foldl_assocStep_none]
    | false =>
      simp only [Bool.false_eq_true, if_false]
      rw [Media.superGet_filter_ne]
      rw [Media.foldl_assocStep_none]

/-- Key membership after an insert-or-replace. -/
theorem mem_mapKeys_upsertKeep (m : List (String × MediaResource))
    (k : String) (v : MediaResource) (x : String) :
    x ∈ mapKeys (upsertKeep m k v) ↔ x ∈ mapKeys m ∨ x = k := by
  induction m with
  | nil => simp [upsertKeep, mapKeys]
  | cons p rest ih =>
    by_cases h : p.1 = k
    · unfold upsertKeep
      rw [if_pos h]
      subst h
      simp [mapKeys]
      tauto
    · unfold upsertKeep
      rw [if_neg h]
      simp only [mapKeys, List.map_cons, List.mem_cons] at *
      rw [ih]
      tauto

/-- `upsertKeep` keeps the keys distinct. -/
theorem nodup_mapKeys_upsertKeep (m : List (String × MediaResource))
    (k : String) (v : MediaResource) (h : (mapKeys m).Nodup) :
    (mapKeys (upsertKeep m k v)).Nodup := by
  induction m with
  | nil => simp [upsertKeep, mapKeys]
  | cons p rest ih =>
    simp only [mapKeys, List.map_cons, List.nodup_cons] at h
    by_cases hk : p.1 = k
    · unfold upsertKeep
      rw [if_pos hk]
      simp only [mapKeys, List.map_cons, List.nodup_cons]
      exact h
    · unfold upsertKeep
      rw [if_neg hk]
      simp only [mapKeys, List.map_cons, List.nodup_cons]
      refine ⟨?_, ih h.2⟩
      intro hcon
      rw [show (List.map (fun p => p.1) (upsertKeep rest k v)) =
        mapKeys (upsertKeep rest k v) from rfl,
        mem_mapKeys_upsertKeep] at hcon
      rcases hcon with hcon | hcon
      · exact h.1 hcon
      · exact hk hcon

/-- `upsertKeep` preserves the entries-under-own-identifier invariant when
the inserted value carries the key as its identifier. -/
theorem idinv_upsertKeep (m : List (String × MediaResource)) (k : String)
    (v : MediaResource) (hv : v.id = k) (h : ∀ p ∈ m, p.2.id = p.1) :
    ∀ p ∈ upsertKeep m k v, p.2.id = p.1 := by
  induction m with
  | nil =>
    intro p hp
    simp only [upsertKeep, List.mem_singleton] at hp
    subst hp
    exact hv
  | cons q rest ih =>
    intro p hp
    by_cases hk : q.1 = k
    · unfold upsertKeep at hp
      rw [if_pos hk] at hp
      rcases List.mem_cons.mp hp with hp | hp
      · subst hp
        rw [hv, hk]
      · exact h p (List.mem_cons_of_mem q hp)
    · unfold upsertKeep at hp
      rw [if_neg hk] at hp
      rcases List.mem_cons.mp hp with hp | hp
      · subst hp
        exact h q (List.mem_cons_self q rest)
      · exact ih (fun r hr => h r (List.mem_cons_of_mem q hr)) p hp

/-- `modifyVal` does not change the key list. -/
theorem mapKeys_modifyVal (m : List (String × MediaResource)) (k : String)
    (g : MediaResource → MediaResource) :
    mapKeys (modifyVal m k g) = mapKeys m := by
  induction m with
  | nil => rfl
  | cons p rest ih =>
    by_cases h : p.1 = k
    · unfold modifyVal
      rw [if_pos h]
      simp [mapKeys]
    · unfold modifyVal
      rw [if_neg h]
      simp only [mapKeys, List.map_cons] at *
      rw [ih]

/-- `modifyVal` preserves the invariant when the update keeps identifiers. -/
theorem idinv_modifyVal (m : List (String × MediaResource)) (k : String)
    (g : MediaResource → MediaResource) (hg : ∀ r, (g r).id = r.id)
    (h : ∀ p ∈ m, p.2.id = p.1) :
    ∀ p ∈ modifyVal m k g, p.2.id = p.1 := by
  induction m with
  | nil =>
    intro p hp
    simp [modifyVal] at hp
  | cons q rest ih =>
    intro p hp
    by_cases hk : q.1 = k
    · unfold modifyVal at hp
      rw [if_pos hk] at hp
      rcases List.mem_cons.mp hp with hp | hp
      · subst hp
        rw [hg]
        exact h q (List.mem_cons_self q rest)
      · exact h p (List.mem_cons_of_mem q hp)
    · unfold modifyVal at hp
      rw [if_neg hk] at hp
      rcases List.mem_cons.mp hp with hp | hp
      · subst hp
        exact h q (List.mem_cons_self q rest)
      · exact ih (fun r hr => h r (List.mem_cons_of_mem q hr)) p hp

/-- A key has a map entry exactly when it is among the keys. -/
theorem lookup_isSome_iff_mem_mapKeys (m : List (String × MediaResource))
    (k : String) : (m.lookup k).isSome = true ↔ k ∈ mapKeys m := by
  induction m with
  | nil => simp [List.lookup, mapKeys]
  | cons p rest ih =>
    by_cases h : k = p.1
    · simp [List.lookup, h, mapKeys]
    · have hbeq : (k == p.1) = false := by
        simp [h]
      simp only [List.lookup, hbeq]
      simp only [mapKeys, List.map_cons, List.mem_cons]
      rw [ih]
      constructor
      · exact fun hm => Or.inr hm
      · rintro (hm | hm)
        · exact absurd hm h
        · exact hm

/-- Key membership after one step of the file-association loop of
`Media.list`: the file's identifier joins the keys exactly when the file is
not a thumbnail. -/
theorem mem_mapKeys_listStep (m : List (String × MediaResource))
    (f : String × String) (k : String) :
    k ∈ mapKeys (Media.listStep m f) ↔
      k ∈ mapKeys m ∨ (f.1 = k ∧ f.2 ≠ "thumbnail.jpg") := by
  unfold Media.listStep
  by_cases hthumb : f.2 = "thumbnail.jpg"
  · rw [if_pos hthumb]
    simp [hthumb]
  · rw [if_neg hthumb]
    by_cases hl : ((m.lookup f.1).isSome : Bool) = true
    · simp only [hl, if_true]
      rw [mapKeys_modifyVal]
      constructor
      · exact fun hm => Or.inl hm
      · rintro (hm | ⟨rfl, _⟩)
        · exact hm
        · exact (lookup_isSome_iff_mem_mapKeys m f.1).mp hl
    · simp only [hl, Bool.false_eq_true, if_false]
      rw [mapKeys_modifyVal, mem_mapKeys_upsertKeep]
      constructor
      · rintro (hm | rfl)
        · exact Or.inl hm
        · exact Or.inr ⟨rfl, hthumb⟩
      · rintro (hm | ⟨rfl, _⟩)
        · exact Or.inl hm
        · exact Or.inr rfl

/-- One step of the file-association loop preserves map well-formedness. -/
theorem wfMap_listStep (m : List (String × MediaResource))
    (f : String × String) (h : WfMap m) : WfMap (Media.listStep m f) := by
  unfold Media.listStep
  by_cases hthumb : f.2 = "thumbnail.jpg"
  · rw [if_pos hthumb]
    exact h
  · rw [if_neg hthumb]
    by_cases hl : ((m.lookup f.1).isSome : Bool) = true
    · simp only [hl, if_true]
      refine ⟨?_, ?_⟩
      · rw [mapKeys_modifyVal]
        exact h.1
      · exact idinv_modifyVal m f.1 _ (fun r => rfl) h.2
    · simp only [hl, Bool.false_eq_true, if_false]
      refine ⟨?_, ?_⟩
      · rw [mapKeys_modifyVal]
        exact nodup_mapKeys_upsertKeep m f.1 _ h.1
      · exact idinv_modifyVal _ f.1 _ (fun r => rfl)
          (idinv_upsertKeep m f.1 _ rfl h.2)

/-- Key membership after the whole file-association loop. -/
theorem mem_mapKeys_foldl_listStep (files : List (String × String)) :
    ∀ (m : List (String × MediaResource)) (k : String),
      k ∈ mapKeys (files.foldl Media.listStep m) ↔
        k ∈ mapKeys m ∨ ∃ f ∈ files, f.1 = k ∧ f.2 ≠ "thumbnail.jpg" := by
  induction files with
  | nil => simp
  | cons f rest ih =>
    intro m k
    show k ∈ mapKeys (rest.foldl Media.listStep (Media.listStep m f)) ↔ _
    rw [ih, mem_mapKeys_listStep]
    simp only [List.mem_cons]
    constructor
    · rintro ((hm | hf) | ⟨g, hg, hgk⟩)
      · exact Or.inl hm
      · exact Or.inr ⟨f, Or.inl rfl, hf⟩
      · exact Or.inr ⟨g, Or.inr hg, hgk⟩
    · rintro (hm | ⟨g, (rfl | hg), hgk⟩)
      · exact Or.inl (Or.inl hm)
      · exact Or.inl (Or.inr hgk)
      · exact Or.inr ⟨g, hg, hgk⟩

/-- The whole file-association loop preserves map well-formedness. -/
theorem wfMap_foldl_listStep (files : List (String × String)) :
    ∀ m : List (String × MediaResource),
      WfMap m → WfMap (files.foldl Media.listStep m) := by
  induction files with
  | nil => exact fun m h => h
  | cons f rest ih =>
    intro m h
    exact ih (Media.listStep m f) (wfMap_listStep m f h)

/-- Key membership after keying the database records. -/
theorem mem_mapKeys_foldl_upsert (db : List MediaResource) :
    ∀ (m : List (String × MediaResource)) (k : String),
      k ∈ mapKeys (db.foldl (fun m r => upsertKeep m r.id r) m) ↔
        k ∈ mapKeys m ∨ ∃ r ∈ db, r.id = k := by
  induction db with
  | nil => simp
  | cons r rest ih =>
    intro m k
    show k ∈ mapKeys (rest.foldl _ (upsertKeep m r.id r)) ↔ _
    rw [ih, mem_mapKeys_upsertKeep]
    simp only [List.mem_cons]
    constructor
    · rintro ((hm | rfl) | ⟨q, hq, hqk⟩)
      · exact Or.inl hm
      · exact Or.inr ⟨r, Or.inl rfl, rfl⟩
      · exact Or.inr ⟨q, Or.inr hq, hqk⟩
    · rintro (hm | ⟨q, (rfl | hq), hqk⟩)
      · exact Or.inl (Or.inl hm)
      · exact Or.inl (Or.inr hqk.symm)
      · exact Or.inr ⟨q, hq, hqk⟩

/-- Keying the database records produces a well-formed map. -/
theorem wfMap_foldl_upsert (db : List MediaResource) :
    ∀ m : List (String × MediaResource),
      WfMap m → WfMap (db.foldl (fun m r => upsertKeep m r.id r) m) := by
  induction db with
  | nil => exact fun m h => h
  | cons r rest ih =>
    intro m h
    refine ih (upsertKeep m r.id r)
      ⟨nodup_mapKeys_upsertKeep m r.id r h.1, idinv_upsertKeep m r.id r rfl h.2⟩

/-- Under the identifier invariant, the identifiers of the map's values are
exactly its keys. -/
theorem map_id_values_eq_mapKeys (m : List (String × MediaResource))
    (h : ∀ p ∈ m, p.2.id = p.1) :
    (m.map (fun p => p.2)).map (fun r => r.id) = mapKeys m := by
  rw [List.map_map]
  exact List.map_congr_left h

/-- C7 (amended): `Media.list` returns exactly one entry per identifier in
the union of the database records and the identifiers of NON-THUMBNAIL
deployed files (a folder containing only `thumbnail.jpg` yields no entry, the
correction forced by the counterexample), and the result is sorted by display
name, case-sensitive lexicographic with ties compared equal. -/
theorem c7_list_union_nodup_sorted (ctx : MediaContext) (s : MediaState) :
    ((Media.list ctx s).map (fun r => r.id)).Nodup ∧
      (∀ id, id ∈ (Media.list ctx s).map (fun r => r.id) ↔
        ((∃ r ∈ s.db, r.id = id) ∨
          ∃ f ∈ Media.deployedFiles ctx s, f.1 = id ∧ f.2 ≠ "thumbnail.jpg")) ∧
      (Media.list ctx s).Sorted mediaLe := by
  have hlist : Media.list ctx s =
      List.insertionSort mediaLe
        (((Media.deployedFiles ctx s).foldl Media.listStep
            (s.db.foldl (fun m r => upsertKeep m r.id r) [])).map
          (fun p => p.2)) := rfl
  rw [hlist]
  set M := (Media.deployedFiles ctx s).foldl Media.listStep
      (s.db.foldl (fun m r => upsertKeep m r.id r) []) with hM
  have hwf : WfMap M :=
    wfMap_foldl_listStep _ _
      (wfMap_foldl_upsert _ _ ⟨List.nodup_nil, by simp⟩)
  have hperm : (List.insertionSort mediaLe (M.map (fun p => p.2))).Perm
      (M.map (fun p => p.2)) := List.perm_insertionSort _ _
  have hpermids : ((List.insertionSort mediaLe (M.map (fun p => p.2))).map
      (fun r => r.id)).Perm (mapKeys M) := by
    have hmap := hperm.map (fun r => r.id)
    rwa [map_id_values_eq_mapKeys M hwf.2] at hmap
  refine ⟨?_, ?_, List.sorted_insertionSort _ _⟩
  · exact hpermids.nodup_iff.mpr hwf.1
  · intro id
    rw [hpermids.mem_iff, hM, mem_mapKeys_foldl_listStep,
      mem_mapKeys_foldl_upsert]
    simp only [mapKeys, List.map_nil, List.not_mem_nil, false_or]

/-- Counterexample to C7 as stated: a deployed folder containing only
`thumbnail.jpg` and no database record contributes an identifier to the
union of the two sources, yet `Media.list` returns no entry at all. -/
theorem c7_thumbnail_only_folder_missing :
    Media.list ctxDeployed stThumbOnly = [] ∧
      ("abc", "thumbnail.jpg") ∈ Media.deployedFiles ctxDeployed stThumbOnly :=
  ⟨rfl, by decide⟩

/-- Sanity check of the intended semantics behind claims C1 and C2: under the
evident intent of line 94, resolving `article` with `withParentFields` walks
the chain and returns the merged schema whose field set is the union
`(body, title)` with the child's definitions first — exactly the spec's
worked example. -/
theorem intended_article_merges_parent_fields :
    SchemaBase.getIntended envArticle 2 "article" { withParentFields := true } =
      some (.ok (.contentSchema
        { articleData with
            fields := [("body", "richText"), ("title", "string")] })) := rfl
